import Mathlib

/-!
Verification development for the profile-classification and content-synthesis
core of a social-media management service.  The definitions below are shallow
embeddings of the Python source (`business_analyzer.py`, `content_generator.py`):
pure data tables are transcribed verbatim, dictionary lookups become
association-list lookups, and the ambient random source is made an explicit
parameter.  Theorems about the claims of the specification follow the
definitions.
-/

/-! ## Classifier (business_analyzer.py) -/

/-- Embeds `BusinessAnalyzer.industry_keywords`: the fixed ordered industry
buckets used for classification (dict literal order preserved). -/
def industry_keywords : List (String × List String) :=
  [("fitness", ["gym", "fitness", "workout", "training", "exercise", "health club", "personal trainer"]),
   ("beauty", ["salon", "spa", "beauty", "hair", "nail", "massage", "facial", "cosmetic"]),
   ("food", ["restaurant", "cafe", "coffee", "dining", "food", "bakery", "catering", "bistro"]),
   ("retail", ["shop", "store", "boutique", "retail", "fashion", "clothing", "accessories"]),
   ("healthcare", ["medical", "dental", "clinic", "doctor", "healthcare", "therapy", "wellness"]),
   ("education", ["school", "academy", "training", "education", "learning", "course", "tutor"]),
   ("professional", ["consulting", "legal", "accounting", "financial", "insurance", "real estate"]),
   ("automotive", ["auto", "car", "garage", "mechanic", "repair", "dealership", "vehicle"]),
   ("entertainment", ["entertainment", "event", "party", "music", "venue", "club", "theater"])]

/-- Embeds `BusinessAnalyzer.tone_indicators` (dict literal order preserved). -/
def tone_indicators : List (String × List String) :=
  [("professional", ["expert", "professional", "certified", "licensed", "quality", "experience"]),
   ("friendly", ["friendly", "welcome", "family", "community", "caring", "personal", "warm"]),
   ("casual", ["fun", "easy", "simple", "relaxed", "comfortable", "laid-back", "chill"]),
   ("premium", ["luxury", "premium", "exclusive", "high-end", "elite", "sophisticated", "upscale"])]

/-- Whether the first character list starts the second one. -/
def startsWithChars : List Char → List Char → Bool
  | [], _ => true
  | _ :: _, [] => false
  | a :: as, b :: bs => a == b && startsWithChars as bs

/-- Whether the needle occurs contiguously inside the haystack. -/
def containsChars (needle : List Char) : List Char → Bool
  | [] => needle.isEmpty
  | b :: bs => startsWithChars needle (b :: bs) || containsChars needle bs

/-- Python's substring test `kw in text`. -/
def kwOccurs (kw text : String) : Bool :=
  containsChars kw.toList text.toList

/-- ASCII lower-casing of a string, as `str.lower` does on the ASCII
keyword data handled here. -/
def strToLower (s : String) : String :=
  String.mk (s.toList.map Char.toLower)

/-- Embeds `sum(1 for keyword in keywords if keyword in all_text)`. -/
def kwScore (text : String) (kws : List String) : Nat :=
  kws.countP (fun kw => kwOccurs kw text)

/-- Embeds `all_text = text + ' ' + ' '.join(services).lower()` from
`BusinessAnalyzer._classify_industry`. -/
def allText (text : String) (services : List String) : String :=
  text ++ " " ++ strToLower (String.intercalate " " services)

/-- Embeds Python's `max(d, key=d.get)` over an insertion-ordered dict,
which returns the first key attaining the maximal value (later entries
replace the current best only on a strictly greater value). -/
def dictMax : List (String × Nat) → Option (String × Nat)
  | [] => none
  | x :: xs =>
    match dictMax xs with
    | none => some x
    | some r => some (if x.2 < r.2 then r else x)

/-- The score dict built by both classifier passes: only entries with a
positive score are inserted, in the fixed bucket order of the table. -/
def scoresOf (sc : String × List String → Nat) (l : List (String × List String)) :
    List (String × Nat) :=
  l.filterMap (fun p => if 0 < sc p then some (p.1, sc p) else none)

/-- Embeds the `industry_scores` dict built in
`BusinessAnalyzer._classify_industry`: only buckets with a positive score are
inserted, in the fixed bucket order. -/
def industryScores (t : String) : List (String × Nat) :=
  scoresOf (fun p => kwScore t p.2) industry_keywords

/-- Embeds `BusinessAnalyzer._classify_industry`. -/
def classify_industry (text : String) (services : List String) : String :=
  match dictMax (industryScores (allText text services)) with
  | none => "general"
  | some r => r.1

/-- Embeds the `tone_scores` dict built in `BusinessAnalyzer._analyze_tone`. -/
def toneScores (text : String) : List (String × Nat) :=
  scoresOf (fun p => kwScore text p.2) tone_indicators

/-- Embeds `BusinessAnalyzer._analyze_tone`. -/
def analyze_tone (text : String) : String :=
  match dictMax (toneScores text) with
  | none => "professional"
  | some r => r.1

/-- The closed industry enum of the data model (9 buckets plus `general`). -/
def industryEnum : List String :=
  ["fitness", "beauty", "food", "retail", "healthcare", "education",
   "professional", "automotive", "entertainment", "general"]

/-- The closed tone enum of the data model. -/
def toneEnum : List String :=
  ["professional", "friendly", "casual", "premium"]

/-! ## Calendar dates (datetime arithmetic used by the scheduler) -/

/-- A Gregorian calendar date, as manipulated by `datetime`. -/
structure Date where
  year : Nat
  month : Nat
  day : Nat
deriving DecidableEq, Repr

/-- Gregorian leap-year rule. -/
def isLeap (y : Nat) : Bool :=
  y % 4 == 0 && (y % 100 != 0 || y % 400 == 0)

/-- Number of days in a month of a given year. -/
def daysInMonth (y m : Nat) : Nat :=
  if m == 2 then (if isLeap y then 29 else 28)
  else if m == 4 || m == 6 || m == 9 || m == 11 then 30
  else 31

/-- The day after a given date. -/
def nextDay (d : Date) : Date :=
  if d.day < daysInMonth d.year d.month then
    { d with day := d.day + 1 }
  else if d.month < 12 then
    { year := d.year, month := d.month + 1, day := 1 }
  else
    { year := d.year + 1, month := 1, day := 1 }

/-- Embeds `start + timedelta(days=n)`. -/
def addDays (d : Date) : Nat → Date
  | 0 => d
  | n + 1 => nextDay (addDays d n)

/-- Zero-pads a number to two digits, as `%m`/`%d` do. -/
def pad2 (n : Nat) : String :=
  if n < 10 then "0" ++ Nat.repr n else Nat.repr n

/-- Zero-pads a number to four digits, as `%Y` does. -/
def pad4 (n : Nat) : String :=
  if n < 10 then "000" ++ Nat.repr n
  else if n < 100 then "00" ++ Nat.repr n
  else if n < 1000 then "0" ++ Nat.repr n
  else Nat.repr n

/-- Embeds `day_date.strftime('%Y-%m-%d')`. -/
def fmtDate (d : Date) : String :=
  pad4 d.year ++ "-" ++ pad2 d.month ++ "-" ++ pad2 d.day

/-! ## Binary64 model (CPython floats used by the engagement estimator)

The engagement numbers are computed in Python with IEEE-754 double
arithmetic: decimal literals denote their nearest binary64 value and each
product is rounded to the nearest binary64 value (ties to even).  The model
below reproduces this exactly over unnormalized integer fractions, for the
magnitude range arising here (no overflow or subnormal handling is needed
for values between 0.9 and 78).
-/

/-- An exact rational value, kept as an unnormalized fraction.  Every
fraction built below has a positive denominator. -/
structure Frac where
  num : Int
  den : Int
deriving DecidableEq, Repr

/-- Strict comparison of fractions (positive denominators assumed). -/
def fracLt (a b : Frac) : Bool :=
  a.num * b.den < b.num * a.den

/-- Non-strict comparison of fractions (positive denominators assumed). -/
def fracLe (a b : Frac) : Bool :=
  a.num * b.den ≤ b.num * a.den

/-- Product of two fractions. -/
def fracMul (a b : Frac) : Frac :=
  ⟨a.num * b.num, a.den * b.den⟩

/-- Quotient of two fractions (second one positive). -/
def fracDiv (a b : Frac) : Frac :=
  ⟨a.num * b.den, a.den * b.num⟩

/-- Floor of a fraction with positive denominator. -/
def fracFloor (a : Frac) : Int :=
  a.num.fdiv a.den

/-- Fuelled search (upward) for the binade exponent of `q ≥ 1`. -/
def expUp (q : Frac) : Nat → Frac → Int → Int
  | 0, _, e => e
  | fuel + 1, p, e =>
    if fracLt q ⟨p.num * 2, p.den⟩ then e
    else expUp q fuel ⟨p.num * 2, p.den⟩ (e + 1)

/-- Fuelled search (downward) for the binade exponent of `0 < q < 1`. -/
def expDown (q : Frac) : Nat → Frac → Int → Int
  | 0, _, e => e
  | fuel + 1, p, e =>
    if fracLe p q then e else expDown q fuel ⟨p.num, p.den * 2⟩ (e - 1)

/-- The binade exponent `e` with `2 ^ e ≤ q < 2 ^ (e + 1)`, for positive `q`. -/
def binadeExp (q : Frac) : Int :=
  if fracLe ⟨1, 1⟩ q then expUp q 64 ⟨1, 1⟩ 0 else expDown q 64 ⟨1, 2⟩ (-1)

/-- An integer or fractional power of two as a fraction. -/
def pow2 (e : Int) : Frac :=
  if 0 ≤ e then ⟨2 ^ e.toNat, 1⟩ else ⟨1, 2 ^ (-e).toNat⟩

/-- Round a fraction (positive denominator) to the nearest integer, ties to
even. -/
def roundHalfEven (q : Frac) : Int :=
  let f := fracFloor q
  let r := q.num - f * q.den
  if 2 * r < q.den then f
  else if q.den < 2 * r then f + 1
  else if f % 2 == 0 then f else f + 1

/-- Nearest binary64 value of a positive fraction. -/
def roundPos (q : Frac) : Frac :=
  let g := pow2 (binadeExp q - 52)
  ⟨roundHalfEven (fracDiv q g) * g.num, g.den⟩

/-- Nearest binary64 value of a fraction (round to nearest, ties to even). -/
def dbl (q : Frac) : Frac :=
  if q.num = 0 then ⟨0, 1⟩
  else if 0 < q.num then roundPos q
  else ⟨-(roundPos ⟨-q.num, q.den⟩).num, (roundPos ⟨-q.num, q.den⟩).den⟩

/-- Python's `int()` on a finite float value: truncation toward zero. -/
def pyInt (q : Frac) : Int :=
  if 0 ≤ q.num then fracFloor q else -(fracFloor ⟨-q.num, q.den⟩)

/-! ## Engagement estimator (content_generator.py) -/

/-- The `estimated_engagement` dict produced by
`ContentGenerator._estimate_engagement`. -/
structure Engagement where
  estimated_likes : Int
  estimated_comments : Int
  estimated_shares : Int
  engagement_score : String
deriving DecidableEq, Repr

/-- Embeds `base_scores` from `ContentGenerator._estimate_engagement`. -/
def base_scores : List (String × Int × Int × Int) :=
  [("promo", 45, 8, 12), ("tip", 65, 15, 25), ("update", 35, 6, 8), ("insight", 55, 12, 20)]

/-- Embeds `tone_multipliers` from `ContentGenerator._estimate_engagement`:
each entry is the binary64 value of the corresponding decimal literal. -/
def tone_multipliers : List (String × Frac) :=
  [("friendly", dbl ⟨12, 10⟩), ("casual", dbl ⟨11, 10⟩),
   ("professional", dbl ⟨1, 1⟩), ("premium", dbl ⟨9, 10⟩)]

/-- Embeds `tone_multipliers.get(tone, 1.0)`. -/
def toneMultiplier (tone : String) : Frac :=
  (tone_multipliers.lookup tone).getD (dbl ⟨1, 1⟩)

/-- Embeds `base_scores.get(post_type, {'likes': 50, 'comments': 10, 'shares': 15})`. -/
def baseScoresFor (post_type : String) : Int × Int × Int :=
  (base_scores.lookup post_type).getD (50, 10, 15)

/-- Embeds `ContentGenerator._estimate_engagement`: each base value is
multiplied (in binary64) by the tone multiplier and truncated with `int()`;
the score label is `"high"` exactly when the multiplier exceeds the binary64
value of the literal `1.1`. -/
def estimate_engagement (post_type tone : String) : Engagement :=
  let base := baseScoresFor post_type
  let m := toneMultiplier tone
  { estimated_likes := pyInt (dbl (fracMul ⟨base.1, 1⟩ m)),
    estimated_comments := pyInt (dbl (fracMul ⟨base.2.1, 1⟩ m)),
    estimated_shares := pyInt (dbl (fracMul ⟨base.2.2, 1⟩ m)),
    engagement_score := if fracLt (dbl ⟨11, 10⟩) m then "high" else "medium" }

example : estimate_engagement "tip" "friendly" = ⟨78, 18, 30, "high"⟩ := by decide
example : estimate_engagement "tip" "casual" = ⟨71, 16, 27, "medium"⟩ := by decide

/-! ## Content pools and static data (content_generator.py) -/

/-- One entry of `ContentGenerator.industry_content`. -/
structure ContentPool where
  offers : List String
  tips : List String
  value_props : List String
  hashtags : List String
deriving DecidableEq, Repr

/-- Embeds `ContentGenerator.industry_content` (dict literal order preserved). -/
def industry_content : List (String × ContentPool) :=
  [("fitness",
    { offers :=
        ["50% off personal training sessions this month",
         "Free fitness assessment with membership signup",
         "Buy 10 classes, get 2 free",
         "New member special: First month for $39",
         "Partner workout packages available"],
      tips :=
        ["Stay hydrated - aim for 8 glasses of water daily",
         "Warm up before workouts to prevent injury",
         "Rest days are just as important as workout days",
         "Focus on form over speed for better results",
         "Set realistic goals and celebrate small wins"],
      value_props :=
        ["helping you achieve your fitness goals",
         "creating a supportive fitness community",
         "providing expert guidance and motivation",
         "offering flexible workout options",
         "building healthy lifestyle habits"],
      hashtags :=
        ["#fitness", "#gym", "#workout", "#health", "#motivation",
         "#personaltraining", "#fitnesscommunity"] }),
   ("beauty",
    { offers :=
        ["20% off all facial treatments this week",
         "Bridal package deal - hair, makeup, and nails",
         "Refer a friend and both get 15% off",
         "New client special: $99 spa day package",
         "Loyalty program: 10th service free"],
      tips :=
        ["Always remove makeup before bed",
         "Use SPF daily, even in winter",
         "Deep condition your hair weekly",
         "Exfoliate 2-3 times per week for glowing skin",
         "Schedule regular trims to keep hair healthy"],
      value_props :=
        ["enhancing your natural beauty",
         "providing relaxing spa experiences",
         "using high-quality, safe products",
         "helping you feel confident and beautiful",
         "creating personalized beauty solutions"],
      hashtags :=
        ["#beauty", "#spa", "#skincare", "#salon", "#selfcare",
         "#beautytips", "#glowup"] }),
   ("food",
    { offers :=
        ["Happy hour: 50% off appetizers 3-6pm",
         "Weekend brunch special: $15 bottomless mimosas",
         "Family dinner deal: Kids eat free Sundays",
         "Date night package: Dinner for two $49",
         "Catering 20% off for orders over $200"],
      tips :=
        ["Try new flavors - expand your palate",
         "Fresh, local ingredients make all the difference",
         "Pair wines with complementary dishes",
         "Save room for dessert - life\x27s too short",
         "Share dishes to try more variety"],
      value_props :=
        ["serving fresh, locally-sourced ingredients",
         "creating memorable dining experiences",
         "bringing people together over great food",
         "supporting local farmers and suppliers",
         "crafting dishes with passion and care"],
      hashtags :=
        ["#restaurant", "#food", "#dining", "#localfood",
         "#freshingredients", "#foodie", "#delicious"] }),
   ("general",
    { offers :=
        ["New customer discount: 20% off first service",
         "Loyalty rewards program now available",
         "Refer a friend and save",
         "Seasonal promotion: Limited time only",
         "Bundle deals available"],
      tips :=
        ["Quality service makes all the difference",
         "Building relationships is key to business success",
         "Customer satisfaction is our top priority",
         "Continuous improvement drives excellence",
         "Local businesses strengthen communities"],
      value_props :=
        ["providing exceptional customer service",
         "delivering quality results every time",
         "supporting our local community",
         "building lasting relationships",
         "exceeding customer expectations"],
      hashtags :=
        ["#business", "#service", "#quality", "#community", "#local",
         "#customerservice"] })]

/-- Embeds `self.industry_content.get(industry, self.industry_content['general'])`. -/
def industryData (industry : String) : ContentPool :=
  (industry_content.lookup industry).getD
    ((industry_content.lookup "general").getD ⟨[], [], [], []⟩)

/-- Embeds `ContentGenerator.cta_options`. -/
def cta_options : List String :=
  ["Book now!",
   "Call to schedule your appointment.",
   "Visit us today!",
   "DM us for more info.",
   "Link in bio to book online.",
   "Stop by or give us a call!",
   "Schedule online or call us.",
   "Don\x27t wait - spaces are limited!",
   "Contact us to learn more.",
   "Book your spot today!"]

/-- Embeds `ContentGenerator.days` (`self.days`). -/
def days : List String :=
  ["monday", "tuesday", "wednesday", "thursday", "friday", "saturday", "sunday"]

/-- Embeds `type_hashtags` from `ContentGenerator._generate_hashtags`. -/
def type_hashtags : List (String × List String) :=
  [("promo", ["#deal", "#offer", "#special", "#save"]),
   ("tip", ["#tips", "#advice", "#howto", "#expert"]),
   ("update", ["#news", "#update", "#announcement"]),
   ("insight", ["#trends", "#insights", "#industry", "#knowledge"])]

/-- Embeds `type_hashtags.get(post_type, [])`. -/
def typeHashtagsFor (post_type : String) : List String :=
  (type_hashtags.lookup post_type).getD []

/-- The three fixed general business hashtags appended by
`ContentGenerator._generate_hashtags`. -/
def generalHashtags : List String :=
  ["#local", "#smallbusiness", "#community"]

/-- Embeds `industry_times` from `ContentGenerator._suggest_best_time`. -/
def industry_times : List (String × List (String × String)) :=
  [("fitness", [("morning", "6:00 AM"), ("evening", "6:00 PM")]),
   ("beauty", [("afternoon", "2:00 PM"), ("evening", "7:00 PM")]),
   ("food", [("lunch", "11:30 AM"), ("dinner", "5:30 PM")]),
   ("general", [("morning", "9:00 AM"), ("afternoon", "3:00 PM")])]

/-- Embeds `post_type_times` from `ContentGenerator._suggest_best_time`. -/
def post_type_times : List (String × String) :=
  [("promo", "afternoon"), ("tip", "morning"),
   ("update", "morning"), ("insight", "afternoon")]

/-- Embeds `ContentGenerator._suggest_best_time`. -/
def suggest_best_time (industry post_type : String) : String :=
  let industry_schedule :=
    (industry_times.lookup industry).getD ((industry_times.lookup "general").getD [])
  let preferred_slot := (post_type_times.lookup post_type).getD "afternoon"
  (industry_schedule.lookup preferred_slot).getD "12:00 PM"

/-! ## Post generation (content_generator.py)

The post `content` string (template selection and slot filling) is not
modelled: no verified property below concerns the assembled text, and every
other field of a generated post is embedded.  The ambient `random` module is
replaced by an explicit source of choices, so the generators are functions of
that source.
-/

/-- An industry news item, as consumed by insight posts. -/
structure NewsItem where
  headline : String
  source : String
deriving DecidableEq, Repr

/-- The business profile fields read by the content generator. -/
structure BusinessProfile where
  business_name : String
  industry : String
  phone : Option String
deriving DecidableEq, Repr

/-- The post preferences read by `ContentGenerator.generate_posts` (defaults
already applied, as `dict.get` does). -/
structure PostPreferences where
  tone : String
  frequency : Nat
  post_types : List String
deriving DecidableEq, Repr

/-- A generated post: every field of the Python post dict except the
assembled `content` string. -/
structure Post where
  hashtags : List String
  post_type : String
  tone : String
  industry : String
  call_to_action : String
  estimated_engagement : Engagement
  best_time_to_post : String
  news_source : Option String
deriving DecidableEq, Repr

/-- An explicit source for the random choices made while generating posts:
`pickStr` stands for `random.choice` on string lists, `pickNews` for
`random.choice` on news lists, and `sample` for `random.sample`. -/
structure RandSrc where
  pickStr : List String → String
  pickNews : List NewsItem → NewsItem
  sample : List String → Nat → List String

/-- Embeds `ContentGenerator._generate_hashtags`. -/
def generate_hashtags (r : RandSrc) (base_hashtags : List String) (post_type : String) :
    List String :=
  let hashtags := base_hashtags ++ typeHashtagsFor post_type ++ generalHashtags
  r.sample hashtags (min 8 hashtags.length)

/-- Embeds `ContentGenerator._generate_standard_post` (all fields except the
formatted `content` string). -/
def generate_standard_post (r : RandSrc) (profile : BusinessProfile)
    (tone post_type : String) : Post :=
  let industry := profile.industry
  let data := industryData industry
  { hashtags := generate_hashtags r data.hashtags post_type,
    post_type := post_type,
    tone := tone,
    industry := industry,
    call_to_action := r.pickStr cta_options,
    estimated_engagement := estimate_engagement post_type tone,
    best_time_to_post := suggest_best_time industry post_type,
    news_source := none }

/-- Embeds `ContentGenerator._generate_insight_post`: with an empty news list
it falls back to a standard tip post; otherwise it builds an insight post
whose hashtag base is the industry pool extended with the two insight
hashtags. -/
def generate_insight_post (r : RandSrc) (profile : BusinessProfile)
    (tone : String) (industry_news : List NewsItem) : Post :=
  if industry_news = [] then generate_standard_post r profile tone "tip"
  else
    let industry := profile.industry
    let data := industryData industry
    let news_item := r.pickNews industry_news
    { hashtags :=
        generate_hashtags r (data.hashtags ++ ["#industrytrends", "#businessinsights"])
          "insight",
      post_type := "insight",
      tone := tone,
      industry := industry,
      call_to_action := r.pickStr cta_options,
      estimated_engagement := estimate_engagement "insight" tone,
      best_time_to_post := suggest_best_time industry "insight",
      news_source := some news_item.source }

/-- Embeds `ContentGenerator._distribute_post_types`. -/
def distribute_post_types (frequency : Nat) (preferred_types : List String) :
    List String :=
  let types := if preferred_types = [] then ["promo", "tip", "update"] else preferred_types
  (List.range frequency).map (fun i => types.getD (i % types.length) "promo")

/-- Embeds `ContentGenerator.generate_posts`: the insight generator is only
invoked when the type is `insight` and the news list is truthy (non-empty);
otherwise the standard generator runs with the requested type. -/
def generate_posts (r : RandSrc) (profile : BusinessProfile)
    (prefs : PostPreferences) (industry_news : List NewsItem) : List Post :=
  (distribute_post_types prefs.frequency prefs.post_types).map (fun post_type =>
    if post_type = "insight" ∧ industry_news ≠ [] then
      generate_insight_post r profile prefs.tone industry_news
    else
      generate_standard_post r profile prefs.tone post_type)

/-! ## Weekly scheduler (content_generator.py) -/

/-- One value of the schedule dict built by
`ContentGenerator.create_weekly_schedule`.  The post type is abstract: the
scheduler never inspects posts except through the `best_time_to_post`
accessor, which is passed explicitly. -/
structure ScheduleEntry (α : Type) where
  date : String
  post : Option α
  suggested_time : Option String
  day_of_week : String
deriving DecidableEq, Repr

/-- Embeds the default posting days chosen when `preferred_days` is falsy. -/
def default_posting_days (frequency : Nat) : List String :=
  if frequency ≤ 3 then ["monday", "wednesday", "friday"]
  else if frequency ≤ 5 then ["monday", "tuesday", "thursday", "friday", "saturday"]
  else days

/-- Embeds the `posting_days` computation of
`ContentGenerator.create_weekly_schedule`: the first `frequency` preferred
days, extended if needed with weekdays not already present. -/
def postingDays (frequency : Nat) (preferred_days : List String) : List String :=
  let pd := if preferred_days = [] then default_posting_days frequency else preferred_days
  let base := pd.take frequency
  if base.length < frequency then
    base ++ (days.filter (fun d => d ∉ base)).take (frequency - base.length)
  else base

/-- Embeds `ContentGenerator.create_weekly_schedule` (with the start date
already parsed): iterate the fixed `monday..sunday` list, pairing day `i`
with `start + i` days, and fill a day's slot with `posts[index]` exactly when
the day occurs in `posting_days` at an index below the number of posts.
`bt` stands for `post.get('best_time_to_post', '12:00 PM')`. -/
def create_weekly_schedule {α : Type} (bt : α → String) (posts : List α)
    (frequency : Nat) (preferred_days : List String) (start : Date) :
    List (String × ScheduleEntry α) :=
  let pd := postingDays frequency preferred_days
  days.enum.map (fun x =>
    let day := x.2
    let idx := pd.indexOf day
    (day,
      { date := fmtDate (addDays start x.1),
        post := if day ∈ pd ∧ idx < posts.length then posts[idx]? else none,
        suggested_time :=
          if day ∈ pd ∧ idx < posts.length then (posts[idx]?).map bt else none,
        day_of_week := day.capitalize }))

example :
    (create_weekly_schedule (fun s : String => s) ["a", "b", "c"] 3
        ["monday", "wednesday", "friday"] ⟨2025, 8, 4⟩).map
      (fun e => (e.1, e.2.date, e.2.post)) =
    [("monday", "2025-08-04", some "a"), ("tuesday", "2025-08-05", none),
     ("wednesday", "2025-08-06", some "b"), ("thursday", "2025-08-07", none),
     ("friday", "2025-08-08", some "c"), ("saturday", "2025-08-09", none),
     ("sunday", "2025-08-10", none)] := by decide

example : fmtDate (addDays ⟨2025, 8, 4⟩ 6) = "2025-08-10" := by decide
example : classify_industry "we are a gym" [] = "fitness" := by decide
example : classify_industry "zzz" [] = "general" := by decide
example : analyze_tone "fun easy chill relaxed" = "casual" := by decide

/-! ## Claim theorems -/

/-- C1: with `frequency = 3`, `preferredDays = [monday, wednesday, friday]`
and `startDate = 2025-08-04`, and any list of at least 3 posts, the monday
slot carries `2025-08-04` and the first post, wednesday carries `2025-08-06`
and the second post, friday carries `2025-08-08` and the third post, and the
tuesday, thursday, saturday and sunday slots have no post. -/
theorem schedule_mwf_scenario {α : Type} (bt : α → String) (p0 p1 p2 : α)
    (rest : List α) :
    (create_weekly_schedule bt (p0 :: p1 :: p2 :: rest) 3
        ["monday", "wednesday", "friday"] ⟨2025, 8, 4⟩).map
      (fun e => (e.1, e.2.date, e.2.post)) =
    [("monday", "2025-08-04", some p0), ("tuesday", "2025-08-05", none),
     ("wednesday", "2025-08-06", some p1), ("thursday", "2025-08-07", none),
     ("friday", "2025-08-08", some p2), ("saturday", "2025-08-09", none),
     ("sunday", "2025-08-10", none)] := by
  simp [create_weekly_schedule, postingDays, default_posting_days, days,
    List.enum, List.enumFrom, List.indexOf, List.findIdx, List.findIdx.go,
    fmtDate, addDays, nextDay, daysInMonth, isLeap, pad2, pad4,
    String.capitalize]
  decide

/-- C5: for every input, the schedule has exactly 7 entries, keyed
`monday..sunday` in that fixed order, and the `i`-th entry's date is
`startDate + i` days, for any start date whatsoever. -/
theorem schedule_shape_invariant {α : Type} (bt : α → String) (posts : List α)
    (frequency : Nat) (preferred_days : List String) (start : Date) :
    (create_weekly_schedule bt posts frequency preferred_days start).length = 7
    ∧ (create_weekly_schedule bt posts frequency preferred_days start).map Prod.fst = days
    ∧ (create_weekly_schedule bt posts frequency preferred_days start).map
        (fun e => e.2.date)
      = (List.range 7).map (fun i => fmtDate (addDays start i)) :=
  ⟨rfl, rfl, rfl⟩

/-- C8 evidence: invoked with `frequency = 3` and an empty post list, the
scheduler does not fail; it returns a full 7-entry schedule whose slots are
all empty. -/
theorem scheduler_silently_underfills :
    (create_weekly_schedule (fun s : String => s) [] 3
        ["monday", "wednesday", "friday"] ⟨2025, 8, 4⟩).map (fun e => e.2.post) =
      [none, none, none, none, none, none, none]
    ∧ (create_weekly_schedule (fun s : String => s) [] 3
        ["monday", "wednesday", "friday"] ⟨2025, 8, 4⟩).length = 7 := by decide

/-- C4: the engagement estimator yields `likes = 78`, `comments = 18`,
`shares = 30`, `score = "high"` for a friendly tip, a `"medium"` score for a
casual tip, and in general the score is `"high"` exactly when the tone
multiplier strictly exceeds the binary64 value of `1.1`. -/
theorem engagement_values_and_boundary :
    estimate_engagement "tip" "friendly" = ⟨78, 18, 30, "high"⟩
    ∧ (estimate_engagement "tip" "casual").engagement_score = "medium"
    ∧ ∀ post_type tone,
        ((estimate_engagement post_type tone).engagement_score = "high"
          ↔ fracLt (dbl ⟨11, 10⟩) (toneMultiplier tone) = true) := by
  refine ⟨by decide, by decide, fun post_type tone => ?_⟩
  show (if fracLt (dbl ⟨11, 10⟩) (toneMultiplier tone) then "high" else "medium") = "high"
    ↔ fracLt (dbl ⟨11, 10⟩) (toneMultiplier tone) = true
  by_cases h : fracLt (dbl ⟨11, 10⟩) (toneMultiplier tone) = true
  · simp [h]
  · simp [h]

/-- C9 counterexample: the content-pool table has exactly the four keys
`fitness`, `beauty`, `food`, `general` (three known industries, not five),
and the `general` entry holds 6 hashtags, not 7. -/
theorem content_pool_shape_counterexample :
    industry_content.map Prod.fst = ["fitness", "beauty", "food", "general"]
    ∧ (industryData "general").hashtags.length = 6 := by decide

/-- C9 amended: the table is keyed by the three known industries plus
`general`; every entry holds exactly 5 offers, 5 tips and 5 value
propositions; the known industries hold 7 hashtags each while `general`
holds 6. -/
theorem content_pool_shape_amended :
    industry_content.map (fun e =>
        (e.1, e.2.offers.length, e.2.tips.length, e.2.value_props.length,
         e.2.hashtags.length)) =
      [("fitness", 5, 5, 5, 7), ("beauty", 5, 5, 5, 7), ("food", 5, 5, 5, 7),
       ("general", 5, 5, 5, 6)] := by decide

/-- C7 evidence: when the requested types contain `insight` and no news is
supplied, `generate_posts` emits a post whose type is still `"insight"`
(built by the standard generator), even though the insight generator's own
empty-news fallback would produce a tip post — that fallback is unreachable
from `generate_posts`. -/
theorem insight_without_news_keeps_insight_type (r : RandSrc)
    (profile : BusinessProfile) (tone : String) :
    (generate_posts r profile ⟨tone, 1, ["insight"]⟩ []).map (fun p => p.post_type) =
      ["insight"]
    ∧ generate_insight_post r profile tone [] =
        generate_standard_post r profile tone "tip" :=
  ⟨rfl, rfl⟩

/-- A maximum returned by `dictMax` is an element of the dict. -/
theorem dictMax_mem {l : List (String × Nat)} {r : String × Nat}
    (h : dictMax l = some r) : r ∈ l := by
  induction l with
  | nil => simp [dictMax] at h
  | cons x xs ih =>
    rw [dictMax] at h
    cases hxs : dictMax xs with
    | none =>
      rw [hxs] at h
      cases h
      exact List.mem_cons_self _ _
    | some q =>
      rw [hxs] at h
      by_cases hc : x.2 < q.2
      · simp only [hc, if_true] at h
        cases h
        exact List.mem_cons_of_mem _ (ih hxs)
      · simp only [hc, if_false] at h
        cases h
        exact List.mem_cons_self _ _

/-- Characterization of a classifier pass: either every bucket scores zero
and the score dict is empty, or the result of `dictMax` over the score dict
is the first bucket (in table order) attaining the maximal score, that score
being positive. -/
theorem dictMax_scoresOf (sc : String × List String → Nat) :
    ∀ l : List (String × List String),
      ((∀ q ∈ l, sc q = 0) ∧ dictMax (scoresOf sc l) = none)
      ∨ ∃ (i : Nat) (p : String × List String), l[i]? = some p
          ∧ dictMax (scoresOf sc l) = some (p.1, sc p)
          ∧ 0 < sc p
          ∧ (∀ q ∈ l, sc q ≤ sc p)
          ∧ (∀ (j : Nat) (q : String × List String),
              j < i → l[j]? = some q → sc q < sc p) := by
  intro l
  induction l with
  | nil => exact Or.inl ⟨by simp, rfl⟩
  | cons p0 rest ih =>
    by_cases h0 : 0 < sc p0
    · have hcons : scoresOf sc (p0 :: rest) = (p0.1, sc p0) :: scoresOf sc rest := by
        simp [scoresOf, List.filterMap_cons, h0]
      rcases ih with ⟨hz, hn⟩ | ⟨i, p, hget, hmax, hpos, hle, hfirst⟩
      · refine Or.inr ⟨0, p0, by simp, ?_, h0, ?_, ?_⟩
        · rw [hcons, dictMax, hn]
        · intro q hq
          rcases List.mem_cons.mp hq with hq | hq
          · exact hq ▸ Nat.le_refl _
          · exact (hz q hq) ▸ Nat.zero_le _
        · intro j q hj _
          exact absurd hj (Nat.not_lt_zero j)
      · by_cases hc : sc p0 < sc p
        · refine Or.inr ⟨i + 1, p, by simpa using hget, ?_, hpos, ?_, ?_⟩
          · rw [hcons, dictMax, hmax]
            simp [hc]
          · intro q hq
            rcases List.mem_cons.mp hq with hq | hq
            · exact hq ▸ Nat.le_of_lt hc
            · exact hle q hq
          · intro j q hj hjq
            cases j with
            | zero =>
              simp at hjq
              exact hjq ▸ hc
            | succ j =>
              simp at hjq
              exact hfirst j q (by omega) hjq
        · refine Or.inr ⟨0, p0, by simp, ?_, h0, ?_, ?_⟩
          · rw [hcons, dictMax, hmax]
            simp [hc]
          · intro q hq
            rcases List.mem_cons.mp hq with hq | hq
            · exact hq ▸ Nat.le_refl _
            · exact Nat.le_trans (hle q hq) (Nat.le_of_not_lt hc)
          · intro j q hj _
            exact absurd hj (Nat.not_lt_zero j)
    · have hcons : scoresOf sc (p0 :: rest) = scoresOf sc rest := by
        simp [scoresOf, List.filterMap_cons, h0]
      rcases ih with ⟨hz, hn⟩ | ⟨i, p, hget, hmax, hpos, hle, hfirst⟩
      · refine Or.inl ⟨?_, by rw [hcons]; exact hn⟩
        intro q hq
        rcases List.mem_cons.mp hq with hq | hq
        · subst hq; omega
        · exact hz q hq
      · refine Or.inr ⟨i + 1, p, by simpa using hget, by rw [hcons]; exact hmax,
          hpos, ?_, ?_⟩
        · intro q hq
          rcases List.mem_cons.mp hq with hq | hq
          · subst hq; omega
          · exact hle q hq
        · intro j q hj hjq
          cases j with
          | zero =>
            simp at hjq
            subst hjq; omega
          | succ j =>
            simp at hjq
            exact hfirst j q (by omega) hjq

/-- C2: whenever at least one bucket has a positive keyword-match score, the
industry classifier returns a bucket whose score is maximal, and every bucket
placed earlier in the fixed table order has a strictly smaller score — so
ties are broken by earliest table position. -/
theorem classifier_returns_first_max (text : String) (services : List String)
    (h : ∃ p ∈ industry_keywords, 0 < kwScore (allText text services) p.2) :
    ∃ (i : Nat) (p : String × List String), industry_keywords[i]? = some p
      ∧ classify_industry text services = p.1
      ∧ (∀ q ∈ industry_keywords,
          kwScore (allText text services) q.2 ≤ kwScore (allText text services) p.2)
      ∧ (∀ (j : Nat) (q : String × List String),
          j < i → industry_keywords[j]? = some q →
          kwScore (allText text services) q.2 < kwScore (allText text services) p.2) := by
  rcases dictMax_scoresOf (fun p => kwScore (allText text services) p.2)
      industry_keywords with ⟨hz, _⟩ | ⟨i, p, hget, hmax, _, hle, hfirst⟩
  · obtain ⟨p, hp, hpos⟩ := h
    have := hz p hp
    omega
  · refine ⟨i, p, hget, ?_, hle, hfirst⟩
    unfold classify_industry
    rw [show industryScores (allText text services)
      = scoresOf (fun p => kwScore (allText text services) p.2) industry_keywords
      from rfl, hmax]

/-- C2 witness: on the text `"gym"` some bucket scores positively, and the
conclusion of the tie-break theorem holds there. -/
theorem classifier_returns_first_max_witness :
    (∃ p ∈ industry_keywords, 0 < kwScore (allText "gym" []) p.2)
    ∧ ∃ (i : Nat) (p : String × List String), industry_keywords[i]? = some p
      ∧ classify_industry "gym" [] = p.1
      ∧ (∀ q ∈ industry_keywords,
          kwScore (allText "gym" []) q.2 ≤ kwScore (allText "gym" []) p.2)
      ∧ (∀ (j : Nat) (q : String × List String),
          j < i → industry_keywords[j]? = some q →
          kwScore (allText "gym" []) q.2 < kwScore (allText "gym" []) p.2) :=
  ⟨by decide, classifier_returns_first_max "gym" [] (by decide)⟩

/-- Every key of the industry table belongs to the closed industry enum. -/
theorem industry_keys_in_enum : ∀ p ∈ industry_keywords, p.1 ∈ industryEnum := by
  decide

/-- Every key of the tone table belongs to the closed tone enum. -/
theorem tone_keys_in_enum : ∀ p ∈ tone_indicators, p.1 ∈ toneEnum := by
  decide

/-- If every bucket of a table scores zero, its score dict is empty. -/
theorem scoresOf_eq_nil {sc : String × List String → Nat}
    {l : List (String × List String)} (h : ∀ p ∈ l, sc p = 0) :
    scoresOf sc l = [] := by
  refine List.filterMap_eq_nil_iff.mpr (fun p hp => ?_)
  simp [h p hp]

/-- C3: the classifier is total — it always returns a member of the closed
industry enum and a member of the closed tone enum — and when no keyword of
any bucket occurs in the analysed text it returns `general`, respectively
`professional`. -/
theorem classifier_total_and_defaults (text : String) (services : List String) :
    classify_industry text services ∈ industryEnum
    ∧ analyze_tone text ∈ toneEnum
    ∧ ((∀ p ∈ industry_keywords, ∀ kw ∈ p.2,
          kwOccurs kw (allText text services) = false)
        → classify_industry text services = "general")
    ∧ ((∀ p ∈ tone_indicators, ∀ kw ∈ p.2, kwOccurs kw text = false)
        → analyze_tone text = "professional") := by
  refine ⟨?_, ?_, ?_, ?_⟩
  · unfold classify_industry
    cases hm : dictMax (industryScores (allText text services)) with
    | none => decide
    | some r =>
      have hr := dictMax_mem hm
      obtain ⟨p, hp, hpr⟩ := List.mem_filterMap.mp hr
      by_cases hpos : 0 < kwScore (allText text services) p.2
      · simp only [hpos, if_true, Option.some_inj] at hpr
        exact hpr ▸ industry_keys_in_enum p hp
      · simp [hpos] at hpr
  · unfold analyze_tone
    cases hm : dictMax (toneScores text) with
    | none => decide
    | some r =>
      have hr := dictMax_mem hm
      obtain ⟨p, hp, hpr⟩ := List.mem_filterMap.mp hr
      by_cases hpos : 0 < kwScore text p.2
      · simp only [hpos, if_true, Option.some_inj] at hpr
        exact hpr ▸ tone_keys_in_enum p hp
      · simp [hpos] at hpr
  · intro h
    have hz : ∀ p ∈ industry_keywords, kwScore (allText text services) p.2 = 0 := by
      intro p hp
      refine List.countP_eq_zero.mpr (fun kw hkw => ?_)
      simp [h p hp kw hkw]
    unfold classify_industry
    rw [show industryScores (allText text services)
      = scoresOf (fun p => kwScore (allText text services) p.2) industry_keywords
      from rfl, scoresOf_eq_nil hz]
    rfl
  · intro h
    have hz : ∀ p ∈ tone_indicators, kwScore text p.2 = 0 := by
      intro p hp
      refine List.countP_eq_zero.mpr (fun kw hkw => ?_)
      simp [h p hp kw hkw]
    unfold analyze_tone
    rw [show toneScores text
      = scoresOf (fun p => kwScore text p.2) tone_indicators
      from rfl, scoresOf_eq_nil hz]
    rfl

/-- The contract of `random.sample l n` (for `n ≤ |l|`): it returns exactly
`n` items, each an element of `l`. -/
def SampleOk (r : RandSrc) : Prop :=
  ∀ (l : List String) (n : Nat), n ≤ l.length →
    (r.sample l n).length = n ∧ ∀ x ∈ r.sample l n, x ∈ l

/-- A deterministic random source: always the first element, respectively
the first `n` elements.  One legitimate outcome of the random draws. -/
def rndTake : RandSrc :=
  { pickStr := fun l => l.headD "",
    pickNews := fun l => l.headD ⟨"", ""⟩,
    sample := fun l n => l.take n }

/-- The deterministic source satisfies the sampling contract. -/
theorem rndTake_sampleOk : SampleOk rndTake := by
  intro l n h
  constructor
  · show (l.take n).length = n
    rw [List.length_take]
    omega
  · intro x hx
    exact List.take_subset _ _ hx

/-- C6 counterexample: an insight post generated from a news item carries the
hashtag `#industrytrends`, which lies outside the union of the industry pool,
the insight type hashtags and the three general hashtags. -/
theorem hashtag_union_counterexample :
    (generate_posts rndTake ⟨"FitZone Gym", "fitness", none⟩
        ⟨"professional", 1, ["insight"]⟩
        [⟨"HIIT workouts gain popularity among busy professionals",
          "Fitness Magazine"⟩]).map (fun p => (p.post_type, p.hashtags)) =
      [("insight",
        ["#fitness", "#gym", "#workout", "#health", "#motivation",
         "#personaltraining", "#fitnesscommunity", "#industrytrends"])]
    ∧ ((industryData "fitness").hashtags ++ typeHashtagsFor "insight"
        ++ generalHashtags).contains "#industrytrends" = false := by decide

/-- The hashtag generator returns at most 8 hashtags, all drawn from its base
pool, the type-specific pool and the general pool. -/
theorem generate_hashtags_spec (r : RandSrc) (hr : SampleOk r)
    (base : List String) (post_type : String) :
    (generate_hashtags r base post_type).length ≤ 8
    ∧ ∀ h ∈ generate_hashtags r base post_type,
        h ∈ base ++ typeHashtagsFor post_type ++ generalHashtags := by
  unfold generate_hashtags
  obtain ⟨hlen, hmem⟩ := hr (base ++ typeHashtagsFor post_type ++ generalHashtags)
    (min 8 (base ++ typeHashtagsFor post_type ++ generalHashtags).length)
    (Nat.min_le_right _ _)
  exact ⟨by rw [hlen]; exact Nat.min_le_left _ _, hmem⟩

/-- C6 amended: for every generated post, the set of hashtags has at most 8
elements and is contained in the union of the industry hashtag pool, the
post-type-specific hashtags, the three fixed general hashtags, and the two
insight hashtags that news-based insight posts append to their base pool. -/
theorem hashtags_bounded_and_from_pools (r : RandSrc) (hr : SampleOk r)
    (profile : BusinessProfile) (prefs : PostPreferences)
    (industry_news : List NewsItem) :
    ∀ p ∈ generate_posts r profile prefs industry_news,
      p.hashtags.toFinset.card ≤ 8
      ∧ ∀ h ∈ p.hashtags,
          h ∈ (industryData profile.industry).hashtags
              ++ typeHashtagsFor p.post_type ++ generalHashtags
              ++ ["#industrytrends", "#businessinsights"] := by
  intro p hp
  obtain ⟨pt, _, rfl⟩ := List.mem_map.mp hp
  by_cases hc : pt = "insight" ∧ industry_news ≠ []
  · rw [if_pos hc]
    unfold generate_insight_post
    rw [if_neg hc.2]
    obtain ⟨hlen, hmem⟩ := generate_hashtags_spec r hr
      ((industryData profile.industry).hashtags
        ++ ["#industrytrends", "#businessinsights"]) "insight"
    refine ⟨Nat.le_trans (List.toFinset_card_le _) hlen, fun h hh => ?_⟩
    have := hmem h hh
    simp only [List.mem_append] at this ⊢
    tauto
  · rw [if_neg hc]
    unfold generate_standard_post
    obtain ⟨hlen, hmem⟩ := generate_hashtags_spec r hr
      (industryData profile.industry).hashtags pt
    refine ⟨Nat.le_trans (List.toFinset_card_le _) hlen, fun h hh => ?_⟩
    have := hmem h hh
    simp only [List.mem_append] at this ⊢
    tauto

/-- C6 amended, witness: the deterministic source satisfies the sampling
contract, and the bound and containment hold for the posts it generates on a
concrete request. -/
theorem hashtags_bounded_and_from_pools_witness :
    SampleOk rndTake
    ∧ ∀ p ∈ generate_posts rndTake ⟨"Cafe Aroma", "food", none⟩
          ⟨"casual", 2, ["promo", "tip"]⟩ [],
        p.hashtags.toFinset.card ≤ 8
        ∧ ∀ h ∈ p.hashtags,
            h ∈ (industryData "food").hashtags
                ++ typeHashtagsFor p.post_type ++ generalHashtags
                ++ ["#industrytrends", "#businessinsights"] :=
  ⟨rndTake_sampleOk,
   hashtags_bounded_and_from_pools rndTake rndTake_sampleOk
     ⟨"Cafe Aroma", "food", none⟩ ⟨"casual", 2, ["promo", "tip"]⟩ []⟩

/-- The first position where a value occurs bounds `indexOf` from above. -/
theorem indexOf_le_of_getElem? :
    ∀ (l : List String) (j : Nat) (a : String),
      l[j]? = some a → l.indexOf a ≤ j := by
  intro l
  induction l with
  | nil => intro j a h; simp at h
  | cons b bs ih =>
    intro j a h
    cases j with
    | zero =>
      simp at h
      subst h
      simp
    | succ j =>
      simp at h
      by_cases hba : b = a
      · subst hba
        simp
      · rw [List.indexOf_cons_ne _ hba]
        exact Nat.succ_le_succ (ih j a h)

/-- Counting filled slots of a schedule reduces to counting qualifying days. -/
theorem countP_map_enumFrom {β : Type} (f : Nat × String → β) (pb : β → Bool)
    (q : String → Bool) (hfq : ∀ i d, pb (f (i, d)) = q d) :
    ∀ (l : List String) (k : Nat), ((l.enumFrom k).map f).countP pb = l.countP q := by
  intro l
  induction l with
  | nil => intro k; rfl
  | cons d rest ih =>
    intro k
    rw [List.enumFrom, List.map_cons, List.countP_cons, List.countP_cons, hfq, ih]

/-- The number of filled slots equals the number of weekdays that occur in
`posting_days` at an index below the number of posts. -/
theorem schedule_filled_count {α : Type} (bt : α → String) (posts : List α)
    (frequency : Nat) (preferred_days : List String) (start : Date) :
    (create_weekly_schedule bt posts frequency preferred_days start).countP
        (fun e => e.2.post.isSome)
    = days.countP (fun d =>
        decide (d ∈ postingDays frequency preferred_days
          ∧ (postingDays frequency preferred_days).indexOf d < posts.length)) := by
  unfold create_weekly_schedule
  rw [show days.enum = days.enumFrom 0 from rfl]
  refine countP_map_enumFrom _ _ _ (fun i d => ?_) days 0
  dsimp only
  by_cases hc : d ∈ postingDays frequency preferred_days
      ∧ (postingDays frequency preferred_days).indexOf d < posts.length
  · rw [if_pos hc, List.getElem?_eq_getElem hc.2]
    simp [hc]
  · rw [if_neg hc]
    simp [hc]

/-- C10: if the first `frequency` preferred days contain a repeated day name,
then (a) the schedule has strictly fewer than `frequency` filled slots, and
(b) the post at a duplicated position is never assigned to any day (each
repeated day resolves to the index of its first occurrence). -/
theorem duplicate_days_underfill :
    (∀ (α : Type) (bt : α → String) (posts : List α) (freq : Nat)
        (pd : List String) (start : Date),
        ¬ (pd.take freq).Nodup →
        (create_weekly_schedule bt posts freq pd start).countP
            (fun e => e.2.post.isSome) < freq)
    ∧ (∀ (n freq : Nat) (pd : List String) (start : Date) (j k : Nat),
        j < k → k < (pd.take freq).length →
        (pd.take freq)[j]? = (pd.take freq)[k]? →
        ∀ e ∈ create_weekly_schedule (fun _ : Nat => "") (List.range n) freq pd start,
          e.2.post ≠ some k) := by
  constructor
  · intro α bt posts freq pd start h
    have hpdne : pd ≠ [] := by
      intro he
      subst he
      simp at h
    have hPDnodup : ¬ (postingDays freq pd).Nodup := by
      intro hnd
      apply h
      unfold postingDays at hnd
      rw [if_neg hpdne] at hnd
      by_cases hlen : (pd.take freq).length < freq
      · rw [if_pos hlen] at hnd
        exact (List.nodup_append.mp hnd).1
      · rw [if_neg hlen] at hnd
        exact hnd
    have hdedup : (postingDays freq pd).dedup.length < (postingDays freq pd).length := by
      rcases Nat.lt_or_ge (postingDays freq pd).dedup.length
          (postingDays freq pd).length with hlt | hge
      · exact hlt
      · exfalso
        have hsub := (postingDays freq pd).dedup_sublist
        have heq := hsub.eq_of_length (Nat.le_antisymm hsub.length_le hge)
        exact hPDnodup (List.dedup_eq_self.mp heq)
    have hPDlen : (postingDays freq pd).length ≤ freq := by
      unfold postingDays
      rw [if_neg hpdne]
      have htake : (pd.take freq).length ≤ freq := by
        rw [List.length_take]
        exact Nat.min_le_left _ _
      by_cases hlen : (pd.take freq).length < freq
      · rw [if_pos hlen, List.length_append]
        have hext : ((days.filter (fun d => d ∉ pd.take freq)).take
            (freq - (pd.take freq).length)).length ≤ freq - (pd.take freq).length := by
          rw [List.length_take]
          exact Nat.min_le_left _ _
        omega
      · rw [if_neg hlen]
        exact htake
    rw [schedule_filled_count]
    have step1 : days.countP (fun d =>
          decide (d ∈ postingDays freq pd
            ∧ (postingDays freq pd).indexOf d < posts.length))
        ≤ days.countP (fun d => decide (d ∈ postingDays freq pd)) := by
      refine List.countP_mono_left (fun d _ hd => ?_)
      simp only [decide_eq_true_eq] at hd ⊢
      exact hd.1
    have step2 : days.countP (fun d => decide (d ∈ postingDays freq pd))
        ≤ (postingDays freq pd).dedup.length := by
      rw [List.countP_eq_length_filter]
      have hnd : (days.filter (fun d => decide (d ∈ postingDays freq pd))).Nodup :=
        (by decide : days.Nodup).filter _
      have hcard := List.toFinset_card_of_nodup hnd
      have hsubset : (days.filter (fun d =>
          decide (d ∈ postingDays freq pd))).toFinset ⊆ (postingDays freq pd).toFinset := by
        intro x hx
        rw [List.mem_toFinset] at hx ⊢
        have hx2 := (List.mem_filter.mp hx).2
        simpa using hx2
      calc (days.filter (fun d => decide (d ∈ postingDays freq pd))).length
          = (days.filter (fun d => decide (d ∈ postingDays freq pd))).toFinset.card :=
            hcard.symm
        _ ≤ (postingDays freq pd).toFinset.card := Finset.card_le_card hsubset
        _ = (postingDays freq pd).dedup.length := List.card_toFinset _
    omega
  · intro n freq pd start j k hj hk h3 e he hpost
    obtain ⟨x, _, rfl⟩ := List.mem_map.mp he
    dsimp only at hpost
    by_cases hc : x.2 ∈ postingDays freq pd
        ∧ (postingDays freq pd).indexOf x.2 < (List.range n).length
    · rw [if_pos hc] at hpost
      have hidxn : (postingDays freq pd).indexOf x.2 < n := by
        simpa using hc.2
      rw [List.getElem?_range hidxn] at hpost
      have hidxk : (postingDays freq pd).indexOf x.2 = k :=
        Option.some_inj.mp hpost
      have hpdne : pd ≠ [] := by
        intro he2
        subst he2
        simp at hk
      have hinit : ∀ i : Nat, i < (pd.take freq).length →
          (postingDays freq pd)[i]? = (pd.take freq)[i]? := by
        intro i hi
        unfold postingDays
        rw [if_neg hpdne]
        by_cases hlen : (pd.take freq).length < freq
        · rw [if_pos hlen]
          rw [List.getElem?_append, if_pos hi]
        · rw [if_neg hlen]
      have hdk : (pd.take freq)[k]? = some ((pd.take freq)[k]) :=
        List.getElem?_eq_getElem hk
      have hPDj : (postingDays freq pd)[j]? = some ((pd.take freq)[k]) := by
        rw [hinit j (Nat.lt_trans hj hk), h3, hdk]
      have hPDk : (postingDays freq pd)[k]? = some ((pd.take freq)[k]) := by
        rw [hinit k hk, hdk]
      have hkPD : k < (postingDays freq pd).length := by
        have := List.indexOf_lt_length.mpr hc.1
        omega
      have hxval : x.2 = (pd.take freq)[k] := by
        have hidxlt := List.indexOf_lt_length.mpr hc.1
        have h1 : (postingDays freq pd)[(postingDays freq pd).indexOf x.2]?
            = some x.2 := by
          rw [List.getElem?_eq_getElem hidxlt, List.getElem_indexOf hidxlt]
        rw [hidxk] at h1
        rw [h1] at hPDk
        exact Option.some_inj.mp hPDk
      have hle : (postingDays freq pd).indexOf x.2 ≤ j := by
        refine indexOf_le_of_getElem? _ j x.2 ?_
        rw [hxval]
        exact hPDj
      omega
    · rw [if_neg hc] at hpost
      exact Option.noConfusion hpost

/-- C10 witness: with `frequency = 2` and the duplicated preferred days
`[monday, monday]`, the schedule has fewer than 2 filled slots, and the post
at the duplicated position 1 is never assigned. -/
theorem duplicate_days_underfill_witness :
    (create_weekly_schedule (fun s : String => s) ["x", "y"] 2
        ["monday", "monday"] ⟨2025, 8, 4⟩).countP (fun e => e.2.post.isSome) < 2
    ∧ ∀ e ∈ create_weekly_schedule (fun _ : Nat => "") (List.range 3) 2
          ["monday", "monday"] ⟨2025, 8, 4⟩,
        e.2.post ≠ some 1 :=
  ⟨duplicate_days_underfill.1 String (fun s => s) ["x", "y"] 2
      ["monday", "monday"] ⟨2025, 8, 4⟩ (by decide),
   duplicate_days_underfill.2 3 2 ["monday", "monday"] ⟨2025, 8, 4⟩ 0 1
      (by decide) (by decide) (by decide)⟩

/-- C3 witness: on the keyword-free text `"qqq"` the classifier indeed
returns the defaults, and both enum memberships hold. -/
theorem classifier_total_and_defaults_witness :
    classify_industry "qqq" [] ∈ industryEnum
    ∧ analyze_tone "qqq" ∈ toneEnum
    ∧ classify_industry "qqq" [] = "general"
    ∧ analyze_tone "qqq" = "professional" :=
  ⟨(classifier_total_and_defaults "qqq" []).1,
   (classifier_total_and_defaults "qqq" []).2.1,
   (classifier_total_and_defaults "qqq" []).2.2.1 (by decide),
   (classifier_total_and_defaults "qqq" []).2.2.2 (by decide)⟩
